import Mathlib

/-!
Verification development for the OpenThread Network Data Publisher and the
posix backbone platform layer.

The Publisher (header: include/openthread/netdata_publisher.h) limits the
number of similar Service / Prefix entries in the Thread Network Data by
monitoring the Network Data and deciding when to add or remove the local
entries.  The core state machine is embedded below from the specification
(the publisher core source is not part of this excerpt; only its public
header is), together with a direct embedding of
src/posix/platform/backbone.cpp.
-/

namespace OTPub

/-- Errors returned by the prefix-kind Publisher API, mirroring the otError
values named in the header (OT_ERROR_NONE, OT_ERROR_INVALID_ARGS,
OT_ERROR_ALREADY, OT_ERROR_NO_BUFS, OT_ERROR_NOT_FOUND). -/
inductive OtError
  | ok
  | invalidArgs
  | already
  | noBufs
  | notFound
deriving DecidableEq, Repr

/-- An IPv6 network prefix: the bit value together with the length in bits. -/
structure Ip6Prefix where
  bits : Nat
  len : Nat
deriving DecidableEq, Repr

/-- Modelled from the spec: a "bad prefix" fails validation; we take a
prefix to be valid when its length is positive and at most 128 bits. -/
def Ip6Prefix.isValid (p : Ip6Prefix) : Bool :=
  decide (0 < p.len ∧ p.len ≤ 128)

/-- Route preference ordinal, high / medium / low. -/
inductive RoutePreference
  | low
  | medium
  | high
deriving DecidableEq, Repr

/-- On-mesh prefix configuration (otBorderRouterConfig): the prefix plus the
capability flags named by the spec (preferred, SLAAC-eligible, default-route,
on-mesh, stable) and a preference ordinal. -/
structure BorderRouterConfig where
  pfx : Ip6Prefix
  preference : RoutePreference
  preferred : Bool
  slaac : Bool
  defaultRoute : Bool
  onMesh : Bool
  stable : Bool
deriving DecidableEq, Repr

/-- External route configuration (otExternalRouteConfig): only stable and
preference apply per the spec. -/
structure ExternalRouteConfig where
  pfx : Ip6Prefix
  preference : RoutePreference
  stable : Bool
deriving DecidableEq, Repr

/-- A candidate prefix-kind entry configuration: the two kinds share one
entry pool. -/
inductive PrefixConfig
  | onMesh (c : BorderRouterConfig)
  | extRoute (c : ExternalRouteConfig)
deriving DecidableEq, Repr

def PrefixConfig.pfx : PrefixConfig → Ip6Prefix
  | .onMesh c => c.pfx
  | .extRoute c => c.pfx

def PrefixConfig.stable : PrefixConfig → Bool
  | .onMesh c => c.stable
  | .extRoute c => c.stable

/-- Modelled from the spec: validation admits an entry when the prefix is
valid and the stable flag is set.  The spec names the failure reasons (bad
prefix, contradictory flags, not stable) without enumerating which flag
combinations are contradictory, so flag consistency is abstracted into
prefix validity here. -/
def PrefixConfig.isValidConfig (c : PrefixConfig) : Bool :=
  c.pfx.isValid && c.stable

/-- Semantic key used by the Duplicate-Count Evaluator: entries are
equivalent when they have the same kind and prefix (prefix kinds) or are
both DNS/SRP service entries (singleton category).  Material flag equality
is abstracted into the key. -/
inductive SemKey
  | onMeshKey (p : Ip6Prefix)
  | extRouteKey (p : Ip6Prefix)
  | dnsSrpKey
deriving DecidableEq, Repr

def PrefixConfig.semKey : PrefixConfig → SemKey
  | .onMesh c => .onMeshKey c.pfx
  | .extRoute c => .extRouteKey c.pfx

/-- Entry publication state: Idle (not requested in the Network Data) or
Added (present).  The transient pending markers are sub-states of these two
per the spec and are not distinguished here. -/
inductive EntryState
  | idle
  | added
deriving DecidableEq, Repr

/-- Events reported through the Publisher callbacks
(otNetDataPublisherEvent). -/
inductive Event
  | entryAdded
  | entryRemoved
deriving DecidableEq, Repr

/-- How the next evaluation is rescheduled: the normal jitter window, or a
shorter backoff after a failed Network Data View request. -/
inductive Resched
  | normalJitter
  | shortBackoff
deriving DecidableEq, Repr

/-- Snapshot of the Network Data View: each element is an entry currently
live network-wide, as a pair of its semantic key and the contributing
node's stable identifier. -/
structure Snapshot where
  entries : List (SemKey × Nat)
deriving DecidableEq, Repr

/-- Duplicate-Count Evaluator: the number of equivalent entries currently
live in the Network Data contributed by nodes other than self. -/
def observedCount (snap : Snapshot) (self : Nat) (k : SemKey) : Nat :=
  (snap.entries.filter fun e => decide (e.1 = k ∧ e.2 ≠ self)).length

/-- Modelled from the spec: the per-kind redundancy target, "e.g. 2 for
prefixes, 1 for the DNS/service singleton". -/
def desiredCount : SemKey → Nat
  | .onMeshKey _ => 2
  | .extRouteKey _ => 2
  | .dnsSrpKey => 1

/-- Number of distinct other nodes contributing an equivalent entry that
rank above self, ranking nodes by their stable identifier. -/
def numRankedAbove (snap : Snapshot) (self : Nat) (k : SemKey) : Nat :=
  ((snap.entries.filter fun e => decide (e.1 = k ∧ self < e.2)).map Prod.snd).dedup.length

/-- Tie-break rule: among the contributors (self plus others in the
snapshot) only the desiredCount highest-ranked keep their copies; self is
inside the keep-set exactly when fewer than desiredCount contributors rank
above it. -/
def inKeepSet (snap : Snapshot) (self : Nat) (k : SemKey) : Bool :=
  decide (numRankedAbove snap self k < desiredCount k)

/-- Environment of one evaluation: the Network Data snapshot, the local
node's stable identifier, and whether the add / remove requests to the
Network Data View would currently succeed. -/
structure Env where
  snap : Snapshot
  selfId : Nat
  addOk : Bool
  removeOk : Bool
deriving DecidableEq, Repr

/-- Outcome of a single evaluation of the transition rule for one entry. -/
structure EvalResult where
  state : EntryState
  events : List Event
  resched : Resched
deriving DecidableEq, Repr

/-- Modelled from the spec: one evaluation of the Publication Decision
Engine transition rule for an entry with semantic key k.  Idle with
observedCount below desiredCount requests addition (Added plus ADDED event
on success, unchanged state and shorter backoff on failure); Added with
observedCount at least desiredCount and self outside the keep-set requests
removal (Idle plus REMOVED event on success, unchanged state and shorter
backoff on failure); otherwise no transition and the normal jitter
reschedule. -/
def evaluate (st : EntryState) (env : Env) (k : SemKey) : EvalResult :=
  let obs := observedCount env.snap env.selfId k
  let d := desiredCount k
  match st with
  | .idle =>
    if obs < d then
      if env.addOk then ⟨.added, [.entryAdded], .normalJitter⟩
      else ⟨.idle, [], .shortBackoff⟩
    else ⟨.idle, [], .normalJitter⟩
  | .added =>
    if d ≤ obs ∧ inKeepSet env.snap env.selfId k = false then
      if env.removeOk then ⟨.idle, [.entryRemoved], .normalJitter⟩
      else ⟨.added, [], .shortBackoff⟩
    else ⟨.added, [], .normalJitter⟩

/-- Iterated evaluation of one entry against a fixed environment: the state
after n evaluation rounds. -/
def iterEval : Nat → EntryState → Env → SemKey → EntryState
  | 0, st, _, _ => st
  | n + 1, st, env, k => iterEval n (evaluate st env k).state env k

/-- Modelled from the spec: the shortened backoff delay used after a failed
Network Data View request (abstract time units). -/
def kRetryBackoffDelay : Nat := 1

/-- Modelled from the spec: the base of the normal re-evaluation delay. -/
def kEvalDelayBase : Nat := 2

/-- Modelled from the spec: bound of the randomized jitter window. -/
def kMaxJitter : Nat := 2

/-- Delay until the next evaluation, given the reschedule class and the
jitter draw j. -/
def reschedDelay : Resched → Nat → Nat
  | .shortBackoff, _ => kRetryBackoffDelay
  | .normalJitter, j => kEvalDelayBase + j % (kMaxJitter + 1)

/-- A tracked prefix-kind entry: its configuration together with its
publication state. -/
structure PrefixEntry where
  cfg : PrefixConfig
  state : EntryState
deriving DecidableEq, Repr

/-- The DNS/SRP service descriptor variants
(otNetDataPublishDnsSrpService Anycast / Unicast / UnicastMeshLocalEid).
Addresses and ports are abstracted to naturals. -/
inductive DnsSrpVariant
  | anycast (seq : Nat)
  | unicastAddr (addr : Nat) (port : Nat)
  | unicastMle (port : Nat)
deriving DecidableEq, Repr

/-- The singleton DNS/SRP service entry. -/
structure DnsSrpEntry where
  variant : DnsSrpVariant
  state : EntryState
deriving DecidableEq, Repr

/-- Modelled from the spec: capacity of the shared prefix entry pool
(OPENTHREAD_CONFIG_NETDATA_PUBLISHER_MAX_PREFIX_ENTRIES). -/
def kMaxPrefixEntries : Nat := 3

/-- Publisher state: the bounded prefix entry pool shared between on-mesh
prefix and external route kinds, plus the independent DNS/SRP singleton
slot. -/
structure Publisher where
  entries : List PrefixEntry
  dnsSrp : Option DnsSrpEntry
deriving DecidableEq, Repr

/-- The Publisher with no tracked entries. -/
def Publisher.empty : Publisher := ⟨[], none⟩

/-- Find the tracked entry with the given prefix value, if any (prefix
values are unique within the pool). -/
def Publisher.findEntry (pub : Publisher) (p : Ip6Prefix) : Option PrefixEntry :=
  pub.entries.find? fun e => decide (e.cfg.pfx = p)

/-- Outcome of a prefix-kind Publish / Unpublish call: the synchronous
result, the Publisher state when the call returns, and the callback events
fired before the call returned. -/
structure PrefixOpOutcome where
  result : OtError
  pub : Publisher
  events : List Event
deriving DecidableEq, Repr

/-- Modelled from the spec: Publish for a prefix-kind entry.  Rejects with
InvalidArgs when validation fails, Already when the prefix value is already
tracked, NoBufs when the shared pool is full; otherwise admits the entry at
Idle and evaluates it synchronously before returning. -/
def Publisher.publishPrefixConfig (pub : Publisher) (c : PrefixConfig) (env : Env) :
    PrefixOpOutcome :=
  if c.isValidConfig = false then ⟨.invalidArgs, pub, []⟩
  else if (pub.findEntry c.pfx).isSome then ⟨.already, pub, []⟩
  else if kMaxPrefixEntries ≤ pub.entries.length then ⟨.noBufs, pub, []⟩
  else
    let r := evaluate .idle env c.semKey
    ⟨.ok, { pub with entries := pub.entries ++ [⟨c, r.state⟩] }, r.events⟩

/-- Modelled from the spec: Unpublish for a prefix-kind entry.  NotFound
when the prefix is not tracked; otherwise the pool entry is deleted
unconditionally (even when the remove-from-network-data step fails, so the
environment is not consulted) and a REMOVED callback fires exactly when the
entry was Added. -/
def Publisher.unpublishPrefix (pub : Publisher) (p : Ip6Prefix) : PrefixOpOutcome :=
  match pub.findEntry p with
  | none => ⟨.notFound, pub, []⟩
  | some e =>
    ⟨.ok, { pub with entries := pub.entries.filter fun x => !decide (x.cfg.pfx = p) },
      if e.state = .added then [Event.entryRemoved] else []⟩

/-- IsAdded for a prefix: true iff the tracked entry with this prefix is in
state Added. -/
def Publisher.isPrefixAddedB (pub : Publisher) (p : Ip6Prefix) : Bool :=
  match pub.findEntry p with
  | some e => decide (e.state = EntryState.added)
  | none => false

/-- REMOVED callback events fired for the currently tracked DnsSrp entry
when it is discarded, tagged with the entry variant: one REMOVED event when
it was Added, none otherwise. -/
def dnsRemovalEvents (pub : Publisher) : List (DnsSrpVariant × Event) :=
  match pub.dnsSrp with
  | some e => if e.state = EntryState.added then [(e.variant, Event.entryRemoved)] else []
  | none => []

/-- Modelled from the spec: publishing any DNS/SRP service variant discards
the previous singleton instance (REMOVED callback when it was Added),
installs the new entry, and evaluates it from scratch (from Idle),
synchronously.  The call returns no error. -/
def Publisher.publishDnsSrp (pub : Publisher) (v : DnsSrpVariant) (env : Env) :
    Publisher × List (DnsSrpVariant × Event) :=
  let r := evaluate .idle env .dnsSrpKey
  ({ pub with dnsSrp := some ⟨v, r.state⟩ },
    dnsRemovalEvents pub ++ r.events.map fun ev => (v, ev))

/-- Modelled from the spec: unpublishing the DNS/SRP service entry clears
the singleton slot; a REMOVED callback fires exactly when the entry was
Added.  The call returns no error (a no-op when nothing is tracked). -/
def Publisher.unpublishDnsSrp (pub : Publisher) : Publisher × List (DnsSrpVariant × Event) :=
  ({ pub with dnsSrp := none }, dnsRemovalEvents pub)

/-- IsAdded for the DNS/SRP singleton. -/
def Publisher.isDnsSrpAddedB (pub : Publisher) : Bool :=
  match pub.dnsSrp with
  | some e => decide (e.state = EntryState.added)
  | none => false

/-- API wrapper, otNetDataPublishOnMeshPrefix. -/
def otNetDataPublishOnMeshPrefix (pub : Publisher) (c : BorderRouterConfig) (env : Env) :
    PrefixOpOutcome :=
  pub.publishPrefixConfig (.onMesh c) env

/-- API wrapper, otNetDataPublishExternalRoute. -/
def otNetDataPublishExternalRoute (pub : Publisher) (c : ExternalRouteConfig) (env : Env) :
    PrefixOpOutcome :=
  pub.publishPrefixConfig (.extRoute c) env

/-- API wrapper, otNetDataUnpublishPrefix. -/
def otNetDataUnpublishPrefix (pub : Publisher) (p : Ip6Prefix) : PrefixOpOutcome :=
  pub.unpublishPrefix p

/-- API wrapper, otNetDataIsPrefixAdded. -/
def otNetDataIsPrefixAdded (pub : Publisher) (p : Ip6Prefix) : Bool :=
  pub.isPrefixAddedB p

/-- API wrapper, otNetDataPublishDnsSrpServiceAnycast: returns no error. -/
def otNetDataPublishDnsSrpServiceAnycast (pub : Publisher) (seq : Nat) (env : Env) :
    Publisher × List (DnsSrpVariant × Event) :=
  pub.publishDnsSrp (.anycast seq) env

/-- API wrapper, otNetDataPublishDnsSrpServiceUnicast: returns no error. -/
def otNetDataPublishDnsSrpServiceUnicast (pub : Publisher) (addr port : Nat) (env : Env) :
    Publisher × List (DnsSrpVariant × Event) :=
  pub.publishDnsSrp (.unicastAddr addr port) env

/-- API wrapper, otNetDataPublishDnsSrpServiceUnicastMeshLocalEid: returns
no error. -/
def otNetDataPublishDnsSrpServiceUnicastMeshLocalEid (pub : Publisher) (port : Nat)
    (env : Env) : Publisher × List (DnsSrpVariant × Event) :=
  pub.publishDnsSrp (.unicastMle port) env

/-- API wrapper, otNetDataUnpublishDnsSrpService: returns no error. -/
def otNetDataUnpublishDnsSrpService (pub : Publisher) :
    Publisher × List (DnsSrpVariant × Event) :=
  pub.unpublishDnsSrp

/-- API wrapper, otNetDataIsDnsSrpServiceAdded. -/
def otNetDataIsDnsSrpServiceAdded (pub : Publisher) : Bool :=
  pub.isDnsSrpAddedB

/-- Concrete /64 prefix used in examples. -/
def pfxA : Ip6Prefix := ⟨0xfd001234, 64⟩

/-- A second concrete /64 prefix. -/
def pfxB : Ip6Prefix := ⟨0xfd005678, 64⟩

/-- A third concrete /64 prefix. -/
def pfxC : Ip6Prefix := ⟨0xfd00abcd, 64⟩

/-- A fourth concrete /64 prefix. -/
def pfxD : Ip6Prefix := ⟨0xfd00ef01, 64⟩

/-- A valid, stable on-mesh prefix configuration. -/
def cfgA : BorderRouterConfig := ⟨pfxA, .medium, true, true, false, true, true⟩

/-- A valid, stable external route configuration. -/
def cfgB : ExternalRouteConfig := ⟨pfxB, .medium, true⟩

/-- A second valid, stable on-mesh prefix configuration. -/
def cfgC : BorderRouterConfig := ⟨pfxC, .low, false, true, false, true, true⟩

/-- A valid, stable external route configuration on the fourth prefix. -/
def cfgD : ExternalRouteConfig := ⟨pfxD, .high, true⟩

/-- An on-mesh prefix configuration that is not stable. -/
def cfgNS : BorderRouterConfig := ⟨pfxB, .medium, true, true, false, true, false⟩

/-- Environment with an empty snapshot and succeeding Network Data View
requests. -/
def envQuiet : Env := ⟨⟨[]⟩, 5, true, true⟩

/-- Environment with an empty snapshot where the add request fails. -/
def envAddFail : Env := ⟨⟨[]⟩, 5, false, true⟩

/-- Snapshot with two other contributors (node ids 10 and 11) for the
on-mesh key of pfxA. -/
def snapTwo : Snapshot := ⟨[(.onMeshKey pfxA, 10), (.onMeshKey pfxA, 11)]⟩

/-- Environment seen by node 1 under snapTwo with succeeding requests. -/
def envTie : Env := ⟨snapTwo, 1, true, true⟩

/-- Environment seen by node 1 under snapTwo where the remove request
fails. -/
def envRemFail : Env := ⟨snapTwo, 1, true, false⟩

/-- Publisher tracking cfgA in state Added, obtained by publishing cfgA
into the empty Publisher under envQuiet. -/
def pubA : Publisher := (Publisher.empty.publishPrefixConfig (.onMesh cfgA) envQuiet).pub

/-- Publisher with a full prefix entry pool mixing both kinds. -/
def pubFull : Publisher :=
  ⟨[⟨.onMesh cfgA, .added⟩, ⟨.onMesh cfgC, .idle⟩, ⟨.extRoute cfgB, .added⟩], none⟩

/-- Publisher tracking a DNS/SRP unicast entry in state Added. -/
def pubDns : Publisher := (Publisher.empty.publishDnsSrp (.unicastAddr 7 1) envQuiet).1

end OTPub

namespace OTPub

theorem find?_append_none {α : Type} (p : α → Bool) (l₁ l₂ : List α)
    (h : l₁.find? p = none) : (l₁ ++ l₂).find? p = l₂.find? p := by
  rw [List.find?_append, h, Option.none_or]

theorem find?_append_sing {α : Type} (p : α → Bool) (l : List α) (a : α)
    (h : l.find? p = none) (ha : p a = true) : (l ++ [a]).find? p = some a := by
  rw [List.find?_append, h]
  exact List.find?_cons_of_pos _ ha

theorem find?_filter_none {α : Type} (p q : α → Bool) (l : List α)
    (h : l.find? p = none) : (l.filter q).find? p = none := by
  rw [List.find?_eq_none] at h ⊢
  intro x hx
  exact h x (List.mem_filter.mp hx).1

theorem length_filter_not_lt {α : Type} (p : α → Bool) (l : List α)
    (h : (l.find? p).isSome) : (l.filter fun x => !p x).length < l.length := by
  induction l with
  | nil => simp at h
  | cons a t ih =>
    cases hpa : p a
    · have ht : (t.find? p).isSome := by
        rwa [List.find?_cons_of_neg _ (by simp [hpa])] at h
      have hlt := ih ht
      simp [List.filter_cons, hpa]
      omega
    · simp [List.filter_cons, hpa]
      exact Nat.lt_succ_of_le (List.length_filter_le _ t)

/-- C3: unpublish of an unknown key returns NotFound and fires no callback;
unpublish of a tracked entry returns ok, fires exactly one REMOVED callback
iff the entry was Added, deletes the pool entry unconditionally (the
Network Data View environment is not consulted, so this holds even when the
remove-from-network-data step fails), and IsAdded for the key is false
afterwards. -/
theorem c3_unpublish_contract (pub : Publisher) (p : Ip6Prefix) :
    (pub.findEntry p = none → pub.unpublishPrefix p = ⟨.notFound, pub, []⟩) ∧
    (∀ e, pub.findEntry p = some e →
      (pub.unpublishPrefix p).result = .ok ∧
      (pub.unpublishPrefix p).pub.findEntry p = none ∧
      otNetDataIsPrefixAdded (pub.unpublishPrefix p).pub p = false ∧
      (e.state = .added → (pub.unpublishPrefix p).events = [.entryRemoved]) ∧
      (e.state ≠ .added → (pub.unpublishPrefix p).events = [])) := by
  constructor
  · intro h
    simp [Publisher.unpublishPrefix, h]
  · intro e he
    have hfind : (pub.unpublishPrefix p).pub.findEntry p = none := by
      simp only [Publisher.unpublishPrefix, he]
      unfold Publisher.findEntry
      rw [List.find?_eq_none]
      intro x hx
      have hmem := (List.mem_filter.mp hx).2
      simpa using hmem
    refine ⟨?_, hfind, ?_, ?_, ?_⟩
    · simp [Publisher.unpublishPrefix, he]
    · simp [otNetDataIsPrefixAdded, Publisher.isPrefixAddedB, hfind]
    · intro ha
      simp [Publisher.unpublishPrefix, he, ha]
    · intro ha
      simp [Publisher.unpublishPrefix, he, ha]

/-- C3 witness: at concrete inputs, unpublishing an unknown key is NotFound
with no events, and unpublishing the Added entry of pubA fires exactly one
REMOVED callback with IsAdded false afterwards. -/
theorem c3_unpublish_contract_witness :
    Publisher.empty.unpublishPrefix pfxA = ⟨.notFound, Publisher.empty, []⟩ ∧
    (pubA.unpublishPrefix pfxA).result = .ok ∧
    (pubA.unpublishPrefix pfxA).events = [.entryRemoved] ∧
    otNetDataIsPrefixAdded (pubA.unpublishPrefix pfxA).pub pfxA = false := by
  have h1 := (c3_unpublish_contract Publisher.empty pfxA).1 (by decide)
  have h2 := (c3_unpublish_contract pubA pfxA).2 ⟨.onMesh cfgA, .added⟩ (by decide)
  exact ⟨h1, h2.1, h2.2.2.2.1 (by decide), h2.2.2.1⟩

/-- C7: a publish call whose configuration fails validation returns
InvalidArgs and the entry is not admitted (the Publisher is unchanged);
this covers a bad prefix and a false stable flag (flag contradictions are
folded into validity in this model); moreover non-stable entries are never
admitted: any entry in the pool after a publish was either already there or
is stable. -/
theorem c7_publish_validation (pub : Publisher) (c : PrefixConfig) (env : Env) :
    (c.isValidConfig = false → pub.publishPrefixConfig c env = ⟨.invalidArgs, pub, []⟩) ∧
    (c.stable = false → pub.publishPrefixConfig c env = ⟨.invalidArgs, pub, []⟩) ∧
    (c.pfx.isValid = false → pub.publishPrefixConfig c env = ⟨.invalidArgs, pub, []⟩) ∧
    (∀ e, e ∈ (pub.publishPrefixConfig c env).pub.entries →
      e ∈ pub.entries ∨ e.cfg.stable = true) := by
  have hstable : c.stable = false → c.isValidConfig = false := by
    intro h
    simp [PrefixConfig.isValidConfig, h]
  have hpfx : c.pfx.isValid = false → c.isValidConfig = false := by
    intro h
    simp [PrefixConfig.isValidConfig, h]
  have hmain : c.isValidConfig = false →
      pub.publishPrefixConfig c env = ⟨.invalidArgs, pub, []⟩ := by
    intro h
    simp [Publisher.publishPrefixConfig, h]
  refine ⟨hmain, fun h => hmain (hstable h), fun h => hmain (hpfx h), ?_⟩
  intro e he
  by_cases hvf : c.isValidConfig = false
  · rw [hmain hvf] at he
    exact Or.inl he
  · have hv : c.isValidConfig = true := by
      cases hcv : c.isValidConfig
      · exact absurd hcv hvf
      · rfl
    by_cases hdup : (pub.findEntry c.pfx).isSome
    · have h1 : pub.publishPrefixConfig c env = ⟨.already, pub, []⟩ := by
        simp [Publisher.publishPrefixConfig, hv, hdup]
      rw [h1] at he
      exact Or.inl he
    · by_cases hcap : kMaxPrefixEntries ≤ pub.entries.length
      · have h1 : pub.publishPrefixConfig c env = ⟨.noBufs, pub, []⟩ := by
          simp [Publisher.publishPrefixConfig, hv, hdup, hcap]
        rw [h1] at he
        exact Or.inl he
      · have hd0 : pub.findEntry c.pfx = none := Option.not_isSome_iff_eq_none.mp hdup
        have hout : (pub.publishPrefixConfig c env).pub =
            { pub with
              entries := pub.entries ++ [⟨c, (evaluate .idle env c.semKey).state⟩] } := by
          simp [Publisher.publishPrefixConfig, hv, hd0, hcap]
        rw [hout] at he
        rcases List.mem_append.mp he with h1 | h1
        · exact Or.inl h1
        · right
          have he2 : e = ⟨c, (evaluate .idle env c.semKey).state⟩ := by simpa using h1
          subst he2
          have hv2 := hv
          simp [PrefixConfig.isValidConfig, Bool.and_eq_true] at hv2
          exact hv2.2

/-- C7 witness: publishing the non-stable configuration cfgNS into pubA
returns InvalidArgs and changes nothing. -/
theorem c7_publish_validation_witness :
    (PrefixConfig.onMesh cfgNS).stable = false ∧
    pubA.publishPrefixConfig (.onMesh cfgNS) envQuiet = ⟨.invalidArgs, pubA, []⟩ := by
  have h := (c7_publish_validation pubA (.onMesh cfgNS) envQuiet).2.1 (by decide)
  exact ⟨by decide, h⟩

/-- C8: when the add or remove request issued by an evaluation fails, the
entry state is unchanged, no callback fires, and the next evaluation is
rescheduled with the shortened backoff, which is strictly shorter than
every delay of the normal jitter window; and the failure never changes the
result a publish call returns to the caller. -/
theorem c8_netdata_failure_backoff (env : Env) (k : SemKey) (pub : Publisher)
    (c : PrefixConfig) :
    (env.addOk = false → observedCount env.snap env.selfId k < desiredCount k →
      evaluate .idle env k = ⟨.idle, [], .shortBackoff⟩) ∧
    (env.removeOk = false → desiredCount k ≤ observedCount env.snap env.selfId k →
      inKeepSet env.snap env.selfId k = false →
      evaluate .added env k = ⟨.added, [], .shortBackoff⟩) ∧
    (∀ j j₂, reschedDelay .shortBackoff j < reschedDelay .normalJitter j₂) ∧
    (∀ a b, (pub.publishPrefixConfig c ⟨env.snap, env.selfId, a, b⟩).result =
      (pub.publishPrefixConfig c env).result) := by
  refine ⟨?_, ?_, ?_, ?_⟩
  · intro ha hobs
    simp [evaluate, hobs, ha]
  · intro hr hobs hkeep
    simp [evaluate, hobs, hkeep, hr]
  · intro j j₂
    simp [reschedDelay, kRetryBackoffDelay, kEvalDelayBase, kMaxJitter]
    omega
  · intro a b
    simp only [Publisher.publishPrefixConfig]
    split_ifs <;> rfl

/-- C8 witness: a failed add leaves the entry Idle with the short backoff,
a failed remove leaves it Added with the short backoff, and the short
backoff is shorter than a normal jitter delay. -/
theorem c8_netdata_failure_backoff_witness :
    evaluate .idle envAddFail (.onMeshKey pfxA) = ⟨.idle, [], .shortBackoff⟩ ∧
    evaluate .added envRemFail (.onMeshKey pfxA) = ⟨.added, [], .shortBackoff⟩ ∧
    reschedDelay .shortBackoff 0 < reschedDelay .normalJitter 0 := by
  have h := c8_netdata_failure_backoff envAddFail (.onMeshKey pfxA) Publisher.empty
    (.onMesh cfgA)
  have h2 := c8_netdata_failure_backoff envRemFail (.onMeshKey pfxA) Publisher.empty
    (.onMesh cfgA)
  exact ⟨h.1 rfl (by decide), h2.2.1 rfl (by decide) (by decide), h.2.2.1 0 0⟩

/-- C9: the DNS/SRP publish variants and the DNS/SRP unpublish return no
error to the caller (their embedded return type carries no OtError,
mirroring the void C signatures): every publish installs the new singleton
entry, and unpublishing when nothing is tracked is a no-op with no callback
rather than a NotFound error. -/
theorem c9_dnssrp_api_no_error (pub : Publisher) (env : Env) (seq addr port port₂ : Nat) :
    ((otNetDataPublishDnsSrpServiceAnycast pub seq env).1.dnsSrp.map DnsSrpEntry.variant =
      some (.anycast seq)) ∧
    ((otNetDataPublishDnsSrpServiceUnicast pub addr port env).1.dnsSrp.map
      DnsSrpEntry.variant = some (.unicastAddr addr port)) ∧
    ((otNetDataPublishDnsSrpServiceUnicastMeshLocalEid pub port₂ env).1.dnsSrp.map
      DnsSrpEntry.variant = some (.unicastMle port₂)) ∧
    (pub.dnsSrp = none → otNetDataUnpublishDnsSrpService pub = (pub, [])) := by
  refine ⟨rfl, rfl, rfl, ?_⟩
  intro h
  obtain ⟨es, d⟩ := pub
  have hd : d = none := h
  subst hd
  rfl

/-- C9 witness: publishing each DNS/SRP variant into the empty Publisher
installs it, and unpublishing with nothing tracked is a no-op. -/
theorem c9_dnssrp_api_no_error_witness :
    ((otNetDataPublishDnsSrpServiceAnycast Publisher.empty 1 envQuiet).1.dnsSrp.map
      DnsSrpEntry.variant = some (.anycast 1)) ∧
    ((otNetDataPublishDnsSrpServiceUnicast Publisher.empty 9 53 envQuiet).1.dnsSrp.map
      DnsSrpEntry.variant = some (.unicastAddr 9 53)) ∧
    ((otNetDataPublishDnsSrpServiceUnicastMeshLocalEid Publisher.empty 53 envQuiet).1.dnsSrp.map
      DnsSrpEntry.variant = some (.unicastMle 53)) ∧
    otNetDataUnpublishDnsSrpService Publisher.empty = (Publisher.empty, []) := by
  have h := c9_dnssrp_api_no_error Publisher.empty envQuiet 1 9 53 53
  exact ⟨h.1, h.2.1, h.2.2.1, h.2.2.2 rfl⟩

/-- C1 counterexample: with capacity available and a valid stable entry the
publish call can still fail (Already, when the prefix is already tracked),
and with observedCount below desiredCount at call time the entry can stay
Idle with no ADDED callback when the Network Data View add request fails. -/
theorem c1_publish_sync_counterexample :
    (pubA.entries.length < kMaxPrefixEntries ∧
      (PrefixConfig.onMesh cfgA).isValidConfig = true ∧
      (pubA.publishPrefixConfig (.onMesh cfgA) envQuiet).result ≠ .ok) ∧
    ((Publisher.empty.publishPrefixConfig (.onMesh cfgA) envAddFail).result = .ok ∧
      observedCount envAddFail.snap envAddFail.selfId (PrefixConfig.onMesh cfgA).semKey <
        desiredCount (PrefixConfig.onMesh cfgA).semKey ∧
      (Publisher.empty.publishPrefixConfig (.onMesh cfgA) envAddFail).events = [] ∧
      otNetDataIsPrefixAdded
        (Publisher.empty.publishPrefixConfig (.onMesh cfgA) envAddFail).pub pfxA = false) := by
  decide

/-- C1 (amended): for every publish call with capacity available, a valid
stable entry, and a prefix not already tracked, the call succeeds and an
evaluation runs synchronously before it returns (the new entry is tracked
at the state of that evaluation); if at call time the observed count is
below the desired count and the Network Data View add request succeeds, the
entry state is Added with the ADDED callback fired before the call
returns. -/
theorem c1_publish_synchronous_add (pub : Publisher) (c : PrefixConfig) (env : Env)
    (hv : c.isValidConfig = true) (hdup : pub.findEntry c.pfx = none)
    (hcap : pub.entries.length < kMaxPrefixEntries) :
    (pub.publishPrefixConfig c env).result = .ok ∧
    (pub.publishPrefixConfig c env).pub.findEntry c.pfx =
      some ⟨c, (evaluate .idle env c.semKey).state⟩ ∧
    (env.addOk = true →
      observedCount env.snap env.selfId c.semKey < desiredCount c.semKey →
      (pub.publishPrefixConfig c env).events = [.entryAdded] ∧
      otNetDataIsPrefixAdded (pub.publishPrefixConfig c env).pub c.pfx = true) := by
  have hcap2 : ¬ kMaxPrefixEntries ≤ pub.entries.length := Nat.not_le.mpr hcap
  have hout : pub.publishPrefixConfig c env =
      ⟨.ok,
        { pub with entries := pub.entries ++ [⟨c, (evaluate .idle env c.semKey).state⟩] },
        (evaluate .idle env c.semKey).events⟩ := by
    simp [Publisher.publishPrefixConfig, hv, hdup, hcap2]
  have hfind : ({ pub with
      entries := pub.entries ++ [⟨c, (evaluate .idle env c.semKey).state⟩] } :
        Publisher).findEntry c.pfx = some ⟨c, (evaluate .idle env c.semKey).state⟩ := by
    unfold Publisher.findEntry
    exact find?_append_sing _ _ _ hdup (by simp)
  refine ⟨by rw [hout], by rw [hout]; exact hfind, ?_⟩
  intro hadd hobs
  have heval : evaluate .idle env c.semKey = ⟨.added, [.entryAdded], .normalJitter⟩ := by
    simp [evaluate, hobs, hadd]
  have hout2 : pub.publishPrefixConfig c env =
      ⟨.ok, { pub with entries := pub.entries ++ [⟨c, .added⟩] }, [.entryAdded]⟩ := by
    rw [hout, heval]
  have hfind2 : ({ pub with entries := pub.entries ++ [⟨c, EntryState.added⟩] } :
      Publisher).findEntry c.pfx = some ⟨c, .added⟩ := by
    unfold Publisher.findEntry
    exact find?_append_sing _ _ _ hdup (by simp)
  constructor
  · rw [hout2]
  · rw [hout2]
    simp [otNetDataIsPrefixAdded, Publisher.isPrefixAddedB, hfind2]

/-- C1 witness: publishing cfgA into the empty Publisher under envQuiet
succeeds, fires the ADDED callback synchronously, and IsAdded is true when
the call returns. -/
theorem c1_publish_synchronous_add_witness :
    (Publisher.empty.publishPrefixConfig (.onMesh cfgA) envQuiet).result = .ok ∧
    (Publisher.empty.publishPrefixConfig (.onMesh cfgA) envQuiet).events = [.entryAdded] ∧
    otNetDataIsPrefixAdded
      (Publisher.empty.publishPrefixConfig (.onMesh cfgA) envQuiet).pub pfxA = true := by
  have h := c1_publish_synchronous_add Publisher.empty (.onMesh cfgA) envQuiet
    (by decide) (by decide) (by decide)
  have h2 := h.2.2 rfl (by decide)
  exact ⟨h.1, h2.1, h2.2⟩

/-- C2 counterexample: an Added entry under a snapshot with observed count
at least desired count and the local node outside the keep-set does not
transition within the evaluation round when the Network Data View remove
request fails, and no REMOVED callback fires. -/
theorem c2_tiebreak_counterexample :
    desiredCount (.onMeshKey pfxA) ≤
      observedCount envRemFail.snap envRemFail.selfId (.onMeshKey pfxA) ∧
    inKeepSet envRemFail.snap envRemFail.selfId (.onMeshKey pfxA) = false ∧
    (evaluate .added envRemFail (.onMeshKey pfxA)).state = .added ∧
    (evaluate .added envRemFail (.onMeshKey pfxA)).events = [] := by
  decide

/-- C2 (amended): for an Added entry under a fixed snapshot with observed
count at least desired count: if the local node is outside the keep-set and
the remove request succeeds, a single evaluation transitions to Idle and
fires the REMOVED callback (on failure the state is unchanged and the
evaluation is rescheduled sooner); once Idle, any number of further
evaluations under the same snapshot stays Idle with no events (no
oscillation); if the local node is inside the keep-set, no transition
occurs. -/
theorem c2_tiebreak_convergence (env : Env) (k : SemKey)
    (hobs : desiredCount k ≤ observedCount env.snap env.selfId k) :
    (inKeepSet env.snap env.selfId k = false → env.removeOk = true →
      evaluate .added env k = ⟨.idle, [.entryRemoved], .normalJitter⟩) ∧
    (∀ n, iterEval n .idle env k = .idle) ∧
    (evaluate .idle env k).events = [] ∧
    (inKeepSet env.snap env.selfId k = true →
      evaluate .added env k = ⟨.added, [], .normalJitter⟩) := by
  have hnlt : ¬ observedCount env.snap env.selfId k < desiredCount k := Nat.not_lt.mpr hobs
  have hidle : evaluate .idle env k = ⟨.idle, [], .normalJitter⟩ := by
    simp [evaluate, hnlt]
  refine ⟨?_, ?_, by rw [hidle], ?_⟩
  · intro hkeep hrem
    simp [evaluate, hobs, hkeep, hrem]
  · intro n
    induction n with
    | zero => rfl
    | succ m ih =>
      show iterEval m (evaluate .idle env k).state env k = .idle
      rw [hidle]
      exact ih
  · intro hkeep
    simp [evaluate, hkeep]

/-- C2 witness: under snapTwo, node 1 is outside the keep-set, one
evaluation of the Added entry reaches Idle with the REMOVED callback, and
three further evaluations stay Idle. -/
theorem c2_tiebreak_convergence_witness :
    evaluate .added envTie (.onMeshKey pfxA) = ⟨.idle, [.entryRemoved], .normalJitter⟩ ∧
    iterEval 3 .idle envTie (.onMeshKey pfxA) = .idle := by
  have h := c2_tiebreak_convergence envTie (.onMeshKey pfxA) (by decide)
  exact ⟨h.1 (by decide) rfl, h.2.1 3⟩

/-- C4: the DNS/SRP service entry is a singleton: any publish installs the
new entry at the state of a fresh evaluation from Idle; when the previous
entry was Added the REMOVED callback for it fires first and the remaining
events are exactly the fresh-evaluation events tagged with the new entry
(so no ADDED fires for the discarded entry); when no entry was tracked, or
it was not Added, only the fresh-evaluation events fire; and no ADDED event
is ever reported for the discarded entry. -/
theorem c4_dnssrp_singleton (pub : Publisher) (v : DnsSrpVariant) (env : Env) :
    ((pub.publishDnsSrp v env).1.dnsSrp =
      some ⟨v, (evaluate .idle env .dnsSrpKey).state⟩) ∧
    (∀ e, pub.dnsSrp = some e → e.state = .added →
      (pub.publishDnsSrp v env).2 =
        (e.variant, Event.entryRemoved) ::
          (evaluate .idle env .dnsSrpKey).events.map fun ev => (v, ev)) ∧
    (∀ e, pub.dnsSrp = some e → e.state ≠ .added →
      (pub.publishDnsSrp v env).2 =
        (evaluate .idle env .dnsSrpKey).events.map fun ev => (v, ev)) ∧
    (pub.dnsSrp = none →
      (pub.publishDnsSrp v env).2 =
        (evaluate .idle env .dnsSrpKey).events.map fun ev => (v, ev)) ∧
    (∀ e, pub.dnsSrp = some e → e.variant ≠ v →
      (e.variant, Event.entryAdded) ∉ (pub.publishDnsSrp v env).2) := by
  have hAdded : ∀ e, pub.dnsSrp = some e → e.state = EntryState.added →
      (pub.publishDnsSrp v env).2 =
        (e.variant, Event.entryRemoved) ::
          (evaluate .idle env .dnsSrpKey).events.map fun ev => (v, ev) := by
    intro e he ha
    simp [Publisher.publishDnsSrp, dnsRemovalEvents, he, ha]
  have hNotAdded : ∀ e, pub.dnsSrp = some e → ¬ e.state = EntryState.added →
      (pub.publishDnsSrp v env).2 =
        (evaluate .idle env .dnsSrpKey).events.map fun ev => (v, ev) := by
    intro e he ha
    simp [Publisher.publishDnsSrp, dnsRemovalEvents, he, ha]
  have hNone : pub.dnsSrp = none →
      (pub.publishDnsSrp v env).2 =
        (evaluate .idle env .dnsSrpKey).events.map fun ev => (v, ev) := by
    intro h
    simp [Publisher.publishDnsSrp, dnsRemovalEvents, h]
  refine ⟨rfl, hAdded, hNotAdded, hNone, ?_⟩
  intro e he hv hmem
  have hne : ∀ ev : Event, (v, ev) ≠ (e.variant, Event.entryAdded) := by
    intro ev heq
    exact hv (congrArg Prod.fst heq).symm
  by_cases ha : e.state = EntryState.added
  · rw [hAdded e he ha] at hmem
    rcases List.mem_cons.mp hmem with h1 | h1
    · simp at h1
    · obtain ⟨ev, -, heq⟩ := List.mem_map.mp h1
      exact hne ev heq
  · rw [hNotAdded e he ha] at hmem
    obtain ⟨ev, -, heq⟩ := List.mem_map.mp hmem
    exact hne ev heq

/-- C4 witness: replacing the Added unicast entry of pubDns with an anycast
entry fires REMOVED for the unicast entry first, with no ADDED for it, and
then the fresh evaluation adds the anycast entry. -/
theorem c4_dnssrp_singleton_witness :
    pubDns.dnsSrp = some ⟨.unicastAddr 7 1, .added⟩ ∧
    (pubDns.publishDnsSrp (.anycast 2) envQuiet).1.dnsSrp = some ⟨.anycast 2, .added⟩ ∧
    (pubDns.publishDnsSrp (.anycast 2) envQuiet).2 =
      [(.unicastAddr 7 1, .entryRemoved), (.anycast 2, .entryAdded)] := by
  have h := c4_dnssrp_singleton pubDns (.anycast 2) envQuiet
  refine ⟨by decide, ?_, ?_⟩
  · rw [h.1]
    decide
  · rw [h.2.1 ⟨.unicastAddr 7 1, .added⟩ (by decide) rfl]
    decide

/-- C5: the prefix entry pool capacity is shared across the on-mesh prefix
and external route kinds, and the DNS/SRP singleton is not counted against
it: with a full pool, a valid publish of a new prefix of either kind
returns NoBufs and leaves the Publisher unchanged; the publish result never
depends on the DNS/SRP slot; and after unpublishing a tracked entry, a
valid publish of an untracked prefix succeeds. -/
theorem c5_capacity_shared (pub : Publisher) (env : Env) :
    (∀ c : PrefixConfig, kMaxPrefixEntries ≤ pub.entries.length →
      c.isValidConfig = true → pub.findEntry c.pfx = none →
      pub.publishPrefixConfig c env = ⟨.noBufs, pub, []⟩) ∧
    (∀ o c, ((Publisher.mk pub.entries o).publishPrefixConfig c env).result =
      (pub.publishPrefixConfig c env).result) ∧
    (∀ pr (cq : PrefixConfig), pub.entries.length ≤ kMaxPrefixEntries →
      (pub.findEntry pr).isSome → cq.isValidConfig = true →
      pub.findEntry cq.pfx = none →
      ((pub.unpublishPrefix pr).pub.publishPrefixConfig cq env).result = .ok) := by
  refine ⟨?_, ?_, ?_⟩
  · intro c hfull hv hdup
    simp [Publisher.publishPrefixConfig, hv, hdup, hfull]
  · intro o c
    simp only [Publisher.publishPrefixConfig, Publisher.findEntry]
    split_ifs <;> rfl
  · intro pr cq hlen hsome hv hdup
    obtain ⟨e, he⟩ := Option.isSome_iff_exists.mp hsome
    have hpool : (pub.unpublishPrefix pr).pub =
        { pub with entries := pub.entries.filter fun x => !decide (x.cfg.pfx = pr) } := by
      simp [Publisher.unpublishPrefix, he]
    have hlt : (pub.entries.filter fun x => !decide (x.cfg.pfx = pr)).length <
        pub.entries.length :=
      length_filter_not_lt _ _ hsome
    have hdup2 : ((pub.unpublishPrefix pr).pub).findEntry cq.pfx = none := by
      rw [hpool]
      unfold Publisher.findEntry
      exact find?_filter_none _ _ _ hdup
    have hcap : ¬ kMaxPrefixEntries ≤ ((pub.unpublishPrefix pr).pub).entries.length := by
      rw [hpool]
      show ¬ kMaxPrefixEntries ≤
        (pub.entries.filter fun x => !decide (x.cfg.pfx = pr)).length
      omega
    simp [Publisher.publishPrefixConfig, hv, hdup2, hcap]

/-- C5 witness: with the full mixed pool pubFull, a valid external route
publish returns NoBufs and changes nothing, and after unpublishing pfxA the
same publish succeeds. -/
theorem c5_capacity_shared_witness :
    pubFull.publishPrefixConfig (.extRoute cfgD) envQuiet = ⟨.noBufs, pubFull, []⟩ ∧
    ((pubFull.unpublishPrefix pfxA).pub.publishPrefixConfig
      (.extRoute cfgD) envQuiet).result = .ok := by
  have h := c5_capacity_shared pubFull envQuiet
  exact ⟨h.1 (.extRoute cfgD) (by decide) (by decide) (by decide),
    h.2.2 pfxA (.extRoute cfgD) (by decide) (by decide) (by decide) (by decide)⟩

/-- C6: publishing a valid configuration whose prefix value is already
tracked returns Already and leaves the Publisher unchanged (the existing
entry is neither replaced nor has its state altered); in particular a
second publish of the same configuration after a successful one returns
Already and changes nothing. -/
theorem c6_publish_idempotent (pub : Publisher) (c : PrefixConfig) (env env₂ : Env)
    (hv : c.isValidConfig = true) :
    ((pub.findEntry c.pfx).isSome →
      pub.publishPrefixConfig c env = ⟨.already, pub, []⟩) ∧
    ((pub.publishPrefixConfig c env).result = .ok →
      (pub.publishPrefixConfig c env).pub.publishPrefixConfig c env₂ =
        ⟨.already, (pub.publishPrefixConfig c env).pub, []⟩) := by
  have halready : ∀ q : Publisher, (q.findEntry c.pfx).isSome →
      q.publishPrefixConfig c env₂ = ⟨.already, q, []⟩ := by
    intro q hdup
    simp [Publisher.publishPrefixConfig, hv, hdup]
  constructor
  · intro hdup
    simp [Publisher.publishPrefixConfig, hv, hdup]
  · intro hok
    by_cases hdup : (pub.findEntry c.pfx).isSome
    · have h1 : pub.publishPrefixConfig c env = ⟨.already, pub, []⟩ := by
        simp [Publisher.publishPrefixConfig, hv, hdup]
      rw [h1] at hok
      simp at hok
    · by_cases hcap : kMaxPrefixEntries ≤ pub.entries.length
      · have h1 : pub.publishPrefixConfig c env = ⟨.noBufs, pub, []⟩ := by
          simp [Publisher.publishPrefixConfig, hv, hdup, hcap]
        rw [h1] at hok
        simp at hok
      · have hd0 : pub.findEntry c.pfx = none := Option.not_isSome_iff_eq_none.mp hdup
        have hpool : (pub.publishPrefixConfig c env).pub =
            { pub with
              entries := pub.entries ++ [⟨c, (evaluate .idle env c.semKey).state⟩] } := by
          simp [Publisher.publishPrefixConfig, hv, hd0, hcap]
        have hfind : ((pub.publishPrefixConfig c env).pub.findEntry c.pfx).isSome := by
          rw [hpool]
          unfold Publisher.findEntry
          rw [find?_append_sing _ _ _ hd0 (by simp)]
          rfl
        exact halready _ hfind

/-- C6 witness: republishing cfgA into pubA (which already tracks pfxA)
returns Already and leaves the Publisher unchanged. -/
theorem c6_publish_idempotent_witness :
    (pubA.publishPrefixConfig (.onMesh cfgA) envQuiet).result = .already ∧
    (pubA.publishPrefixConfig (.onMesh cfgA) envQuiet).pub = pubA := by
  have h := (c6_publish_idempotent pubA (.onMesh cfgA) envQuiet envQuiet (by decide)).1
    (by decide)
  exact ⟨by rw [h], by rw [h]⟩

end OTPub

namespace Backbone

/-- IFNAMSIZ on Linux. -/
def IFNAMSIZ : Nat := 16

/-- Process exit codes used by VerifyOrDie in backbone.cpp
(OT_EXIT_INVALID_ARGUMENTS and OT_EXIT_FAILURE). -/
inductive OtExitCode
  | invalidArguments
  | failure
deriving DecidableEq, Repr

/-- The globals set by platformBackboneInit on the success path:
gBackboneNetifName and gBackboneNetifIndex. -/
structure BackboneState where
  netifName : List Char
  netifIndex : Nat
deriving DecidableEq, Repr

/-- strnlen: the length of the string, capped at maxlen. -/
def strnlen (s : List Char) (maxlen : Nat) : Nat := min s.length maxlen

/-- Embedding of platformBackboneInit from src/posix/platform/backbone.cpp.
The interface name argument is an Option (none embeds a null pointer) and
ifIndexOf embeds if_nametoindex for the ambient system state.  A
VerifyOrDie firing is the error case (process death with the given exit
code); the ok case returns the globals as set just before
sMulticastRoutingManager.Init(aInstance) runs. -/
def platformBackboneInit (name? : Option (List Char)) (ifIndexOf : List Char → Nat) :
    Except OtExitCode BackboneState :=
  match name? with
  | none => .error .invalidArguments
  | some name =>
    if strnlen name IFNAMSIZ ≤ IFNAMSIZ - 1 then
      let idx := ifIndexOf name
      if 0 < idx then .ok ⟨name, idx⟩ else .error .failure
    else .error .invalidArguments

/-- Interface lookup fixture: eth0 has index 7, every other name has no
index. -/
def fIdx : List Char → Nat := fun n => if n = ['e', 't', 'h', '0'] then 7 else 0

/-- C10: platformBackboneInit dies (VerifyOrDie) rather than returning an
error when the interface-name argument is null, when the name length is not
at most IFNAMSIZ - 1, or when if_nametoindex maps the name to no interface
index; on the success path it sets the global backbone interface name and a
strictly positive interface index (the returned state is the one passed on
to the multicast routing manager initialization). -/
theorem c10_platformBackboneInit_contract (f : List Char → Nat) (name : List Char) :
    (platformBackboneInit none f = .error .invalidArguments) ∧
    (IFNAMSIZ - 1 < name.length →
      platformBackboneInit (some name) f = .error .invalidArguments) ∧
    (name.length ≤ IFNAMSIZ - 1 → f name = 0 →
      platformBackboneInit (some name) f = .error .failure) ∧
    (name.length ≤ IFNAMSIZ - 1 → 0 < f name →
      platformBackboneInit (some name) f = .ok ⟨name, f name⟩ ∧
      0 < (BackboneState.mk name (f name)).netifIndex) := by
  have hiff : (strnlen name IFNAMSIZ ≤ IFNAMSIZ - 1) ↔ name.length ≤ IFNAMSIZ - 1 := by
    simp only [strnlen, IFNAMSIZ]
    omega
  refine ⟨rfl, ?_, ?_, ?_⟩
  · intro hlong
    have hno : ¬ (strnlen name IFNAMSIZ ≤ IFNAMSIZ - 1) := by
      rw [hiff]
      omega
    simp [platformBackboneInit, hno]
  · intro hlen hzero
    have h1 : strnlen name IFNAMSIZ ≤ IFNAMSIZ - 1 := hiff.mpr hlen
    simp [platformBackboneInit, h1, hzero]
  · intro hlen hpos
    have h1 : strnlen name IFNAMSIZ ≤ IFNAMSIZ - 1 := hiff.mpr hlen
    exact ⟨by simp [platformBackboneInit, h1, hpos], hpos⟩

/-- C10 witness: the null name and an over-long name die with the
invalid-arguments exit code, a name with no interface index dies with the
failure exit code, and eth0 succeeds with index 7. -/
theorem c10_platformBackboneInit_contract_witness :
    platformBackboneInit none fIdx = .error .invalidArguments ∧
    platformBackboneInit (some ['e', 't', 'h', '0']) fIdx = .ok ⟨['e', 't', 'h', '0'], 7⟩ ∧
    platformBackboneInit (some (List.replicate 16 'a')) fIdx = .error .invalidArguments ∧
    platformBackboneInit (some ['l', 'o']) fIdx = .error .failure := by
  have h := c10_platformBackboneInit_contract fIdx ['e', 't', 'h', '0']
  have h2 := c10_platformBackboneInit_contract fIdx (List.replicate 16 'a')
  have h3 := c10_platformBackboneInit_contract fIdx ['l', 'o']
  refine ⟨h.1, ?_, h2.2.1 (by decide), h3.2.2.1 (by decide) (by decide)⟩
  have hok := (h.2.2.2 (by decide) (by decide)).1
  have hv : fIdx ['e', 't', 'h', '0'] = 7 := by decide
  rw [hv] at hok
  exact hok

end Backbone
